import Mathlib

/-!
Shallow embedding of the batch TTS orchestration and reporting core of
`text2speech-v1.py` (class `TTSBatchProcessor`).

Modelling conventions:
* Python strings are Lean `String`s; `len` is `String.length` (both count
  Unicode code points).
* `str.strip()` is modelled as dropping ASCII whitespace characters from both
  ends (`List.dropWhile` at the front, `List.rdropWhile` at the back).
* Wall-clock times and audio durations (Python floats) are modelled as `ℚ`.
* The synthesis engine and the filesystem are oracles: a `SynthEnv` supplies,
  for each synthesis call, the elapsed time of the call and the outcome of
  re-opening the produced WAV file (`none` models any exception raised while
  reading it: missing file, corrupt header, unsupported format).
* Log output is not rendered; where a claim refers to a warning being logged,
  the embedding records a Boolean flag.
-/

namespace TTSV1

/-- Whitespace characters removed by Python `str.strip()` (ASCII range). -/
def isPyWhitespace (c : Char) : Bool :=
  c == ' ' || c == '\t' || c == '\n' || c == '\x0d' || c == '\x0b' || c == '\x0c'

/-- Trimming a character list at both ends, the core of Python `str.strip()`:
drop whitespace from the front, then from the back. -/
def stripList (l : List Char) : List Char :=
  List.rdropWhile isPyWhitespace (List.dropWhile isPyWhitespace l)

/-- Python `text.strip()`: remove leading and trailing whitespace. -/
def pyStrip (s : String) : String :=
  String.mk (stripList s.toList)

/-- The characters removed by the regex `[<>:"/\\|?*]` in `sanitize_filename`. -/
def illegalChar (c : Char) : Bool :=
  c == '<' || c == '>' || c == ':' || c == '"' || c == '/' || c == '\\' ||
  c == '|' || c == '?' || c == '*'

/-- Python `sanitize_filename`: `re.sub` removes every illegal character,
then `strip()` trims surrounding whitespace. -/
def sanitize_filename (s : String) : String :=
  pyStrip (String.mk (s.toList.filter (fun c => !(illegalChar c))))

/-- The header data `wave.open` reads from a WAV file: `getnframes` and
`getframerate`. -/
structure WavInfo where
  frames : Nat
  sampleRate : Nat
deriving DecidableEq, Repr

/-- Python `get_audio_duration`: the argument is the outcome of opening the
file (`none` models any exception raised by `wave.open`/reads). Returns
`(duration, warned)` where `warned` records that the `except` branch logged a
warning. A zero `sampleRate` makes `frames / float(sample_rate)` raise
`ZeroDivisionError`, which the surrounding `try` also catches. -/
def get_audio_duration (wav : Option WavInfo) : ℚ × Bool :=
  match wav with
  | none => (0, true)
  | some info =>
    if info.sampleRate = 0 then (0, true)
    else ((info.frames : ℚ) / (info.sampleRate : ℚ), false)

/-- The `line_num` field of a record: an `int` in per-line mode, or the fixed
sentinel string `完整文本` in whole-text mode. -/
inductive UnitLabel where
  | line (n : Int)
  | fullText
deriving DecidableEq, Repr

/-- One processing record, as built by `process_single_line` /
`process_full_text`. -/
structure ProcessingRecord where
  line_num : UnitLabel
  char_count : Nat
  elapsed_time : ℚ
  audio_duration : ℚ
deriving DecidableEq, Repr

/-- Oracle for the externals of one run: for the `i`-th synthesis call,
`elapsedAt i` is the wall-clock time the engine call took and `wavAt i` is the
outcome of re-opening the WAV file the engine wrote. -/
structure SynthEnv where
  elapsedAt : Nat → ℚ
  wavAt : Nat → Option WavInfo

/-- Python `generate_output_filename`: first 10 characters of the text,
sanitized; per-line names are `"{line_num}_{safe}.wav"`, whole-text names are
`"full_text_{timestamp}_{safe}.wav"`; the full path joins the output
directory with the file name (`os.path.join` with a relative name). -/
def generate_output_filename (output_dir : String) (line_num : Int)
    (text : String) (is_full_text : Bool) (timestamp : String) :
    String × String :=
  let textHead10 := String.mk (text.toList.take 10)
  let safe := sanitize_filename textHead10
  let output_filename :=
    if is_full_text then
      "full_text_" ++ timestamp ++ "_" ++ safe ++ ".wav"
    else
      toString line_num ++ "_" ++ safe ++ ".wav"
  (output_filename, output_dir ++ "/" ++ output_filename)

/-- Python `process_single_line` for the `idx`-th synthesis call: the record
it returns. (`char_count = len(text)`; the `total_char_count += char_count`
side effect is threaded by the caller loop below.) -/
def process_single_line (env : SynthEnv) (idx : Nat) (line_num : Int)
    (text : String) : ProcessingRecord :=
  { line_num := UnitLabel.line line_num
    char_count := text.length
    elapsed_time := env.elapsedAt idx
    audio_duration := (get_audio_duration (env.wavAt idx)).1 }

/-- Python `process_full_text`: the record it returns (its
`total_char_count = char_count` assignment is applied by `process_batch`). -/
def process_full_text (env : SynthEnv) (text : String) : ProcessingRecord :=
  { line_num := UnitLabel.fullText
    char_count := text.length
    elapsed_time := env.elapsedAt 0
    audio_duration := (get_audio_duration (env.wavAt 0)).1 }

/-- The per-line loop of `process_batch`: iterate lines in order, strip each,
skip empty ones (no counter increment), otherwise increment `line_counter`,
compute `output_line_num = start_line_num + (line_counter - 1)`, process the
line and append the record, accumulating `total_char_count`.
Returns (records, total_char_count). -/
def runLinesSt (env : SynthEnv) (start_line_num : Int) :
    List String → Nat → Nat → List ProcessingRecord × Nat
  | [], _, total => ([], total)
  | l :: rest, line_counter, total =>
    let text := pyStrip l
    if text = "" then
      runLinesSt env start_line_num rest line_counter total
    else
      let lc := line_counter + 1
      let output_line_num := start_line_num + ((lc : Int) - 1)
      let r := process_single_line env lc output_line_num text
      let p := runLinesSt env start_line_num rest lc (total + r.char_count)
      (r :: p.1, p.2)

/-- Whole-text mode preprocessing of `process_batch`: strip every line, keep
the non-empty ones, join with a single space separator (Python join). -/
def joinedBlob (inputLines : List String) : String :=
  String.intercalate " " ((inputLines.map pyStrip).filter (fun l => !(l == "")))

/-- State accumulated by one run of `process_batch`. `warned_empty` records
that the "输入文件为空" warning branch was taken. -/
structure BatchRun where
  records : List ProcessingRecord
  total_char_count : Nat
  warned_empty : Bool
deriving Repr

/-- Python `process_batch` (the processing part; input is the list of lines):
per-line mode runs the per-line loop from `line_counter = 0` and
`total_char_count = 0`; whole-text mode joins the stripped non-empty lines
and either processes the blob as one unit or, when the blob is empty, only
logs a warning. -/
def process_batch (env : SynthEnv) (inputLines : List String)
    (start_line_num : Int) (read_by_line : Bool) : BatchRun :=
  if read_by_line then
    let p := runLinesSt env start_line_num inputLines 0 0
    { records := p.1, total_char_count := p.2, warned_empty := false }
  else
    let full_text := joinedBlob inputLines
    if full_text = "" then
      { records := [], total_char_count := 0, warned_empty := true }
    else
      let r := process_full_text env full_text
      { records := [r], total_char_count := r.char_count,
        warned_empty := false }

/-- The ratios computed for one row of the report table:
`ratio = elapsed_time / char_count if char_count > 0 else 0.0` and
`time_ratio = elapsed_time / audio_duration if audio_duration > 0 else 0.0`. -/
def reportRow (r : ProcessingRecord) : ℚ × ℚ :=
  ( if r.char_count > 0 then r.elapsed_time / (r.char_count : ℚ) else 0
  , if r.audio_duration > 0 then r.elapsed_time / r.audio_duration else 0 )

/-- The numeric content of the report rendered by `generate_report`. -/
structure ReportData where
  rows : List (ℚ × ℚ)
  total_audio_duration : ℚ
  total_ratio : ℚ
  total_time_ratio : ℚ
deriving Repr

/-- Python `generate_report`: per-record ratios, the accumulated
`total_audio_duration`, and the guarded ratios of the totals row. -/
def generate_report (records : List ProcessingRecord)
    (total_char_count : Nat) (total_elapsed : ℚ) : ReportData :=
  let total_audio_duration := records.foldl (fun acc r => acc + r.audio_duration) 0
  { rows := records.map reportRow
    total_audio_duration := total_audio_duration
    total_ratio :=
      if total_char_count > 0 then total_elapsed / (total_char_count : ℚ) else 0
    total_time_ratio :=
      if total_audio_duration > 0 then total_elapsed / total_audio_duration else 0 }

/-- Whether a raw input line survives stripping (consumes an ordinal in
per-line mode). -/
def nonEmptyAfterStrip (l : String) : Bool :=
  !(pyStrip l == "")

/-- A concrete oracle for witnesses: every call takes 0 seconds and the WAV
file cannot be read back. -/
def envZero : SynthEnv :=
  { elapsedAt := fun _ => 0, wavAt := fun _ => none }

/-! ### Helper lemmas -/

theorem toList_mk (l : List Char) : (String.mk l).toList = l := rfl

theorem one_le_length_of_ne_empty {s : String} (h : s ≠ "") : 1 ≤ s.length := by
  cases s with
  | mk data =>
    cases data with
    | nil => exact absurd rfl h
    | cons a as => simp [String.length]

theorem dropWhile_fix_of_prefix {α : Type} {p : α → Bool} {A B : List α}
    (hBA : B <+: A) (hA : List.dropWhile p A = A) :
    List.dropWhile p B = B := by
  cases B with
  | nil => rfl
  | cons b B2 =>
    obtain ⟨t, ht⟩ := hBA
    subst ht
    have h0 : 0 < ((b :: B2) ++ t).length := by simp
    have hb : ¬ p (((b :: B2) ++ t).get ⟨0, h0⟩) :=
      List.dropWhile_eq_self_iff.mp hA h0
    exact List.dropWhile_cons_of_neg hb

theorem stripList_dropWhile_fix (l : List Char) :
    List.dropWhile isPyWhitespace (stripList l) = stripList l :=
  dropWhile_fix_of_prefix (List.rdropWhile_prefix _ _)
    (List.dropWhile_idempotent _ _)

theorem stripList_idem (l : List Char) : stripList (stripList l) = stripList l := by
  show List.rdropWhile isPyWhitespace
      (List.dropWhile isPyWhitespace (stripList l)) = stripList l
  rw [stripList_dropWhile_fix]
  exact List.rdropWhile_idempotent _ _

theorem stripList_sublist (l : List Char) : (stripList l).Sublist l :=
  ((List.rdropWhile_prefix _ _).sublist).trans (List.dropWhile_sublist _)

theorem sanitize_toList (s : String) :
    (sanitize_filename s).toList
      = stripList (s.toList.filter (fun c => !(illegalChar c))) := rfl

theorem sanitize_filename_sublist (s : String) :
    ((sanitize_filename s).toList).Sublist s.toList := by
  rw [sanitize_toList]
  exact (stripList_sublist _).trans (List.filter_sublist _)

theorem sanitize_filename_no_illegal (s : String) :
    ∀ c ∈ (sanitize_filename s).toList, illegalChar c = false := by
  intro c hc
  rw [sanitize_toList] at hc
  have hc2 : c ∈ s.toList.filter (fun c => !(illegalChar c)) :=
    (stripList_sublist _).subset hc
  simpa using (List.mem_filter.mp hc2).2

/-! ### Claim theorems -/

/-- C4: the Reporter computes `char_ratio = elapsed_time / char_count` with
result 0 when `char_count` is 0, and `time_ratio = elapsed_time /
audio_duration` with result 0 when `audio_duration` is 0; the totals row
computes both ratios the same guarded way against the summed totals. -/
theorem report_ratio_guards (r : ProcessingRecord) (rs : List ProcessingRecord)
    (tc : Nat) (te : ℚ) :
    (r.char_count = 0 → (reportRow r).1 = 0)
    ∧ (0 < r.char_count → (reportRow r).1 = r.elapsed_time / (r.char_count : ℚ))
    ∧ (r.audio_duration = 0 → (reportRow r).2 = 0)
    ∧ (0 < r.audio_duration →
        (reportRow r).2 = r.elapsed_time / r.audio_duration)
    ∧ ((generate_report rs tc te).rows = rs.map reportRow)
    ∧ (tc = 0 → (generate_report rs tc te).total_ratio = 0)
    ∧ (0 < tc → (generate_report rs tc te).total_ratio = te / (tc : ℚ))
    ∧ ((generate_report rs tc te).total_audio_duration = 0 →
        (generate_report rs tc te).total_time_ratio = 0)
    ∧ (0 < (generate_report rs tc te).total_audio_duration →
        (generate_report rs tc te).total_time_ratio =
          te / (generate_report rs tc te).total_audio_duration) := by
  refine ⟨?_, ?_, ?_, ?_, rfl, ?_, ?_, ?_, ?_⟩
  · intro h; simp [reportRow, h]
  · intro h; simp [reportRow, h]
  · intro h; simp [reportRow, h]
  · intro h; simp [reportRow, h]
  · intro h; simp [generate_report, h]
  · intro h; simp [generate_report, h, Nat.pos_iff_ne_zero.mp h]
  · intro h
    simp only [generate_report] at h ⊢
    rw [h]
    norm_num
  · intro h
    simp only [generate_report] at h ⊢
    rw [if_pos h]

/-- C4 witness: the guards at concrete records and totals. -/
theorem report_ratio_guards_witness :
    (reportRow ⟨UnitLabel.line 1, 0, 5, 0⟩).1 = 0
    ∧ (reportRow ⟨UnitLabel.line 1, 0, 5, 0⟩).2 = 0
    ∧ (reportRow ⟨UnitLabel.line 2, 4, 6, 3⟩).2 = 6 / 3
    ∧ (generate_report [] 0 5).total_ratio = 0
    ∧ (generate_report [] 0 5).total_time_ratio = 0 := by
  refine ⟨?_, ?_, ?_, ?_, ?_⟩
  · exact (report_ratio_guards ⟨UnitLabel.line 1, 0, 5, 0⟩ [] 0 5).1 rfl
  · exact (report_ratio_guards ⟨UnitLabel.line 1, 0, 5, 0⟩ [] 0 5).2.2.1 rfl
  · exact (report_ratio_guards ⟨UnitLabel.line 2, 4, 6, 3⟩ [] 0 5).2.2.2.1
      (by norm_num)
  · exact (report_ratio_guards ⟨UnitLabel.line 1, 0, 5, 0⟩ [] 0 5).2.2.2.2.2.1 rfl
  · exact (report_ratio_guards ⟨UnitLabel.line 1, 0, 5, 0⟩ [] 0 5).2.2.2.2.2.2.2.1
      rfl

/-- C5: the Duration Probe returns `frames / sample_rate` on success and
`(0, warning)` on any failure to open or read the file; it is a total
function, so it never raises. -/
theorem get_audio_duration_spec (w : WavInfo) (h : w.sampleRate ≠ 0) :
    get_audio_duration (some w) = ((w.frames : ℚ) / (w.sampleRate : ℚ), false)
    ∧ get_audio_duration none = (0, true) := by
  constructor
  · simp [get_audio_duration, h]
  · rfl

/-- C5 witness: a 441000-frame, 44100 Hz file probes to 10 seconds; a missing
file probes to 0 with a warning. -/
theorem get_audio_duration_spec_witness :
    get_audio_duration (some ⟨441000, 44100⟩) = (10, false)
    ∧ get_audio_duration none = (0, true) := by
  constructor
  · rw [(get_audio_duration_spec ⟨441000, 44100⟩ (by norm_num)).1]
    norm_num
  · exact (get_audio_duration_spec ⟨441000, 44100⟩ (by norm_num)).2

/-- C7: in per-line mode the Unit Namer returns
`"{line_num}_{sanitize(first 10 chars)}.wav"`, with the full path joining the
output directory with that filename; at ordinal 5 and text
`"The quick brown fox"` the sanitized first-10-character prefix gives the
filename `"5_The quick.wav"`. -/
theorem generate_output_filename_per_line (dir ts : String) (n : Int)
    (text : String) :
    (generate_output_filename dir n text false ts).1
      = toString n ++ "_"
        ++ sanitize_filename (String.mk (text.toList.take 10)) ++ ".wav"
    ∧ (generate_output_filename dir n text false ts).2
      = dir ++ "/" ++ (generate_output_filename dir n text false ts).1
    ∧ (generate_output_filename dir 5 "The quick brown fox" false ts).1
      = "5_The quick.wav" := by
  exact ⟨rfl, rfl, rfl⟩

/-- C8: the Filename Sanitizer returns a subsequence of its input containing
no illegal character, with no whitespace at either end; it is a pure total
function on strings. -/
theorem sanitize_filename_spec (s : String) :
    (sanitize_filename s).toList.Sublist s.toList
    ∧ (∀ c ∈ (sanitize_filename s).toList, illegalChar c = false)
    ∧ (∀ h : 0 < (sanitize_filename s).toList.length,
        isPyWhitespace ((sanitize_filename s).toList.get ⟨0, h⟩) = false)
    ∧ (∀ h : (sanitize_filename s).toList ≠ [],
        isPyWhitespace ((sanitize_filename s).toList.getLast h) = false) := by
  refine ⟨sanitize_filename_sublist s, sanitize_filename_no_illegal s, ?_, ?_⟩
  · intro h
    have hfix := stripList_dropWhile_fix (s.toList.filter (fun c => !(illegalChar c)))
    rw [← sanitize_toList] at hfix
    have := List.dropWhile_eq_self_iff.mp hfix h
    simpa using this
  · intro h
    have := List.rdropWhile_last_not
      (p := isPyWhitespace)
      (l := List.dropWhile isPyWhitespace
        (s.toList.filter (fun c => !(illegalChar c)))) h
    simpa using this

/-- C8 witness: the sanitizer on `" a<b* "` yields a subsequence whose
characters avoid the illegal set and whose ends are not whitespace. -/
theorem sanitize_filename_spec_witness :
    (sanitize_filename " a<b* ").toList.Sublist (" a<b* ").toList
    ∧ illegalChar 'a' = false
    ∧ isPyWhitespace 'a' = false
    ∧ isPyWhitespace 'b' = false := by
  refine ⟨(sanitize_filename_spec " a<b* ").1, ?_, ?_, ?_⟩
  · exact (sanitize_filename_spec " a<b* ").2.1 'a' (by decide)
  · exact (sanitize_filename_spec " a<b* ").2.2.1 (by decide)
  · exact (sanitize_filename_spec " a<b* ").2.2.2 (by decide)

/-- C9: the Filename Sanitizer is idempotent. -/
theorem sanitize_filename_idem (s : String) :
    sanitize_filename (sanitize_filename s) = sanitize_filename s := by
  have hfilter :
      (sanitize_filename s).toList.filter (fun c => !(illegalChar c))
        = (sanitize_filename s).toList := by
    rw [List.filter_eq_self]
    intro a ha
    simp [sanitize_filename_no_illegal s a ha]
  show pyStrip (String.mk
    ((sanitize_filename s).toList.filter (fun c => !(illegalChar c))))
    = sanitize_filename s
  rw [hfilter]
  show String.mk (stripList (sanitize_filename s).toList) = sanitize_filename s
  rw [sanitize_toList, stripList_idem]
  rfl

theorem runLinesSt_labels (env : SynthEnv) (off : Int) :
    ∀ (ls : List String) (c t : Nat),
      (runLinesSt env off ls c t).1.map (fun r => r.line_num)
        = (List.range ((ls.filter nonEmptyAfterStrip).length)).map
            (fun (k : Nat) => UnitLabel.line (off + (c : Int) + (k : Int))) := by
  intro ls
  induction ls with
  | nil => intro c t; simp [runLinesSt]
  | cons l rest ih =>
    intro c t
    by_cases h : pyStrip l = ""
    · have hne : nonEmptyAfterStrip l = false := by
        simp [nonEmptyAfterStrip, h]
      simp only [runLinesSt, if_pos h, List.filter_cons, hne]
      simp only [Bool.false_eq_true, if_false]
      exact ih c t
    · have hne : nonEmptyAfterStrip l = true := by
        simp [nonEmptyAfterStrip, h]
      simp only [runLinesSt, if_neg h, List.filter_cons, hne, if_true,
        List.length_cons, List.map_cons]
      rw [List.range_succ_eq_map, List.map_cons, List.map_map, ih]
      congr 1
      · simp only [process_single_line]
        congr 1
        push_cast
        ring
      · apply List.map_congr_left
        intro k _
        simp only [Function.comp_apply, UnitLabel.line.injEq]
        push_cast
        ring

theorem runLinesSt_total (env : SynthEnv) (off : Int) :
    ∀ (ls : List String) (c t : Nat),
      (runLinesSt env off ls c t).2
        = t + ((runLinesSt env off ls c t).1.map (fun r => r.char_count)).sum := by
  intro ls
  induction ls with
  | nil => intro c t; simp [runLinesSt]
  | cons l rest ih =>
    intro c t
    by_cases h : pyStrip l = ""
    · simp only [runLinesSt, if_pos h]
      exact ih c t
    · simp only [runLinesSt, if_neg h, List.map_cons, List.sum_cons]
      rw [ih]
      omega

theorem runLinesSt_mem_char_count (env : SynthEnv) (off : Int) :
    ∀ (ls : List String) (c t : Nat) (r : ProcessingRecord),
      r ∈ (runLinesSt env off ls c t).1 → 1 ≤ r.char_count := by
  intro ls
  induction ls with
  | nil => intro c t r hr; simp [runLinesSt] at hr
  | cons l rest ih =>
    intro c t r hr
    by_cases h : pyStrip l = ""
    · rw [show (runLinesSt env off (l :: rest) c t)
          = runLinesSt env off rest c t from by simp [runLinesSt, h]] at hr
      exact ih c t r hr
    · simp only [runLinesSt, if_neg h, List.mem_cons] at hr
      rcases hr with hr | hr
      · subst hr
        simpa [process_single_line] using one_le_length_of_ne_empty h
      · exact ih _ _ r hr

/-- C1: in per-line mode, blank lines are skipped without consuming an
ordinal and the k-th non-empty line gets label `start_offset + (k - 1)`, so
the labels of successive records are exactly offset+0, offset+1, offset+2,
regardless of the number and position of skipped blank lines. -/
theorem per_line_labels (env : SynthEnv) (inputLines : List String)
    (off : Int) :
    (process_batch env inputLines off true).records.map (fun r => r.line_num)
      = (List.range ((inputLines.filter nonEmptyAfterStrip).length)).map
          (fun (k : Nat) => UnitLabel.line (off + (k : Int))) := by
  simp only [process_batch, if_pos]
  rw [runLinesSt_labels env off inputLines 0 0]
  apply List.map_congr_left
  intro k _
  simp

/-- C3: in both modes the accumulated `total_char_count` equals the sum of
`char_count` over all accumulated records. -/
theorem total_char_count_eq_sum (env : SynthEnv) (inputLines : List String)
    (off : Int) (mode : Bool) :
    (process_batch env inputLines off mode).total_char_count
      = ((process_batch env inputLines off mode).records.map
          (fun r => r.char_count)).sum := by
  cases mode with
  | true =>
    simp only [process_batch, if_pos]
    simpa using runLinesSt_total env off inputLines 0 0
  | false =>
    by_cases h : joinedBlob inputLines = "" <;>
      simp [process_batch, h, process_full_text]

/-- C2: in whole-text mode, when the space-joined blob of stripped non-empty
lines is non-empty, exactly one record is produced, labeled with the
whole-text sentinel, with `char_count` the length of the joined blob. -/
theorem whole_text_single_record (env : SynthEnv) (inputLines : List String)
    (off : Int) (h : joinedBlob inputLines ≠ "") :
    (process_batch env inputLines off false).records.map
        (fun r => (r.line_num, r.char_count))
      = [(UnitLabel.fullText, (joinedBlob inputLines).length)]
    ∧ (process_batch env inputLines off false).warned_empty = false := by
  simp [process_batch, h, process_full_text]

/-- C2 witness: Scenario B, lines "Hello world.", "", "Goodbye." joined to a
21-character blob give one whole-text record of char_count 21. -/
theorem whole_text_single_record_witness :
    (process_batch envZero ["Hello world.", "", "Goodbye."] 1 false).records.map
        (fun r => (r.line_num, r.char_count))
      = [(UnitLabel.fullText, 21)]
    ∧ (joinedBlob ["Hello world.", "", "Goodbye."]).length = 21 := by
  constructor
  · rw [(whole_text_single_record envZero ["Hello world.", "", "Goodbye."] 1
      (by decide)).1]
    decide
  · rfl

/-- C6: whole-text mode on an input of only blank lines logs a warning,
produces zero records, leaves `total_char_count = 0`, and the totals
row of the report evaluates both guarded ratios to 0 without dividing. -/
theorem whole_text_blank_input (env : SynthEnv) (inputLines : List String)
    (off : Int) (te : ℚ) (h : ∀ l ∈ inputLines, pyStrip l = "") :
    (process_batch env inputLines off false).records = []
    ∧ (process_batch env inputLines off false).warned_empty = true
    ∧ (process_batch env inputLines off false).total_char_count = 0
    ∧ (generate_report (process_batch env inputLines off false).records
        (process_batch env inputLines off false).total_char_count
        te).total_ratio = 0
    ∧ (generate_report (process_batch env inputLines off false).records
        (process_batch env inputLines off false).total_char_count
        te).total_time_ratio = 0 := by
  have hblob : joinedBlob inputLines = "" := by
    unfold joinedBlob
    have hnil : (inputLines.map pyStrip).filter (fun l => !(l == "")) = [] := by
      rw [List.filter_eq_nil_iff]
      intro a ha
      simp only [List.mem_map] at ha
      obtain ⟨x, hx, rfl⟩ := ha
      simp [h x hx]
    rw [hnil]
    rfl
  simp [process_batch, hblob, generate_report]

/-- C6 witness: two blank lines in whole-text mode give zero records, the
warning, zero total, and zero ratios in the totals row. -/
theorem whole_text_blank_input_witness :
    (process_batch envZero ["", "   "] 1 false).records = []
    ∧ (process_batch envZero ["", "   "] 1 false).warned_empty = true
    ∧ (process_batch envZero ["", "   "] 1 false).total_char_count = 0
    ∧ (generate_report (process_batch envZero ["", "   "] 1 false).records
        (process_batch envZero ["", "   "] 1 false).total_char_count
        5).total_ratio = 0
    ∧ (generate_report (process_batch envZero ["", "   "] 1 false).records
        (process_batch envZero ["", "   "] 1 false).total_char_count
        5).total_time_ratio = 0 :=
  whole_text_blank_input envZero ["", "   "] 1 5 (by decide)

/-- C10: every record of a per-line run has `char_count ≥ 1` (only non-empty
stripped lines are processed), so the zero-char_count fallback of the Reporter is
unreachable for such records: the row char ratio is always the quotient. -/
theorem per_line_char_count_pos (env : SynthEnv) (inputLines : List String)
    (off : Int) (r : ProcessingRecord)
    (hr : r ∈ (process_batch env inputLines off true).records) :
    1 ≤ r.char_count
    ∧ (reportRow r).1 = r.elapsed_time / (r.char_count : ℚ) := by
  have h1 : 1 ≤ r.char_count := by
    apply runLinesSt_mem_char_count env off inputLines 0 0 r
    simpa [process_batch] using hr
  refine ⟨h1, ?_⟩
  simp [reportRow, show 0 < r.char_count from h1]

/-- C10 witness: the record produced for the single line "hi" has
`char_count = 2` and its row char ratio is the quotient. -/
theorem per_line_char_count_pos_witness :
    1 ≤ (ProcessingRecord.mk (UnitLabel.line 1) 2 0 0).char_count
    ∧ (reportRow (ProcessingRecord.mk (UnitLabel.line 1) 2 0 0)).1
      = (ProcessingRecord.mk (UnitLabel.line 1) 2 0 0).elapsed_time
        / ((ProcessingRecord.mk (UnitLabel.line 1) 2 0 0).char_count : ℚ) :=
  per_line_char_count_pos envZero ["hi"] 1
    (ProcessingRecord.mk (UnitLabel.line 1) 2 0 0) (by decide)

end TTSV1
